import Mathlib

/-
Verification of the redacting structured logger and the config service factory
of the alphahw/backstage repository.

The rootLogger implementation itself is not among the supplied sources (only
its test file is), so the logger and redaction filter below are modelled from
the specification document, faithful to its words; the config service factory
is translated from
packages/backend-app-api/src/services/implementations/config/configFactory.ts.

Strings are Lean strings; scanning works on their underlying character lists.
The scanner uses an explicit fuel argument equal to the length of the input,
so that it is structurally recursive and kernel-executable; each scanning step
consumes at least one character, so the fuel is never exhausted early.
-/

namespace RootLogger

/-- Modelled from the spec: the literal placeholder `[REDACTED]` written over
every redacted occurrence (rootLogger implementation missing from the supplied
sources). -/
def redactedTxt : List Char := "[REDACTED]".data

/-- Modelled from the spec: at the current scan position, find the first
surviving registered secret (length at least 2) that occurs literally at this
position. Matching is literal character comparison, never pattern syntax, so
hyphen, underscore and period in a secret are plain text. -/
def matchSecret (secrets : List (List Char)) (l : List Char) : Option (List Char) :=
  secrets.find? (fun s => decide (1 < s.length) && s.isPrefixOf l)

/-- Modelled from the spec: single left-to-right scan replacing all
non-overlapping literal occurrences of surviving secrets with the placeholder.
A replaced span is skipped whole and never rescanned within the same pass, so
one pass never double-replaces an already-redacted span. The fuel argument
bounds the recursion; it is set to the input length by `redactChars`. -/
def redactGo (secrets : List (List Char)) : Nat → List Char → List Char
  | 0, _ => []
  | _ + 1, [] => []
  | fuel + 1, c :: rest =>
    match matchSecret secrets (c :: rest) with
    | some s => redactedTxt ++ redactGo secrets fuel (rest.drop (s.length - 1))
    | none => c :: redactGo secrets fuel rest

/-- Modelled from the spec: redaction of a character list, entry point fixing
the fuel to the input length. -/
def redactChars (secrets : List (List Char)) (l : List Char) : List Char :=
  redactGo secrets l.length l

/-- Modelled from the spec: `redact(message)` — replace all non-overlapping
exact substring occurrences of every surviving registered secret with the
literal placeholder `[REDACTED]`. -/
def redact (secrets : List String) (m : String) : String :=
  String.mk (redactChars (secrets.map String.data) m.data)

/-- Modelled from the spec: `setRedactionList(secrets)` replaces the entire
current set; secrets shorter than 2 characters are silently dropped. -/
def setRedactionList (secrets : List String) : List String :=
  secrets.filter (fun s => decide (1 < s.length))

/-- Whether `s` occurs literally at some position of the list. -/
def hasMatch (s : List Char) : List Char → Bool
  | [] => false
  | c :: rest => s.isPrefixOf (c :: rest) || hasMatch s rest

/-- Whether `s` occurs as a literal substring of `m`. -/
def occursIn (s m : String) : Bool := hasMatch s.data m.data

/-- Modelled from the spec: log severity levels. -/
inductive Level where
  | error
  | warn
  | info
  | debug
  deriving DecidableEq

/-- Metadata: a mapping from field names to values, represented as an
association list in which the first binding of a key wins, so that
`override ++ base` is "override merged over base". -/
abbrev Meta := List (String × String)

/-- Look up a metadata field. -/
def getMeta (m : Meta) (k : String) : Option String :=
  (m.find? (fun p => p.1 == k)).map (fun p => p.2)

/-- Modelled from the spec: a log record — message, level and metadata.
The timestamp is implicit in the spec's data model and carries no observable
contract, so it is omitted. -/
structure LogRecord where
  message : String
  level : Level
  metadata : Meta
  deriving DecidableEq

/-- A sink (transport) identified by its identity; records are delivered to
sinks, which are opaque external collaborators. -/
abbrev Sink := Nat

/-- A format pipeline stage: given the current process-wide redaction list and
a record, return the transformed record, or `none` to signal "drop" (the
falsy result of the dynamic hook). Default-path pipelines close over the
shared global redaction state, hence the first argument. -/
abbrev Format := List String → LogRecord → Option LogRecord

/-- The built-in console sink. -/
def consoleSink : Sink := 0

/-- The configured application name. -/
def appName : String := "backstage"

/-- Modelled from the spec: the built-in default metadata, a single field
`service` equal to the configured application name. -/
def builtinMeta : Meta := [("service", appName)]

/-- Modelled from the spec: the default formatting pipeline — redact the
message field using the current process-wide redaction list; everything else
in the record is passed through unchanged. -/
def defaultFormat : Format := fun secrets r =>
  some { r with message := redact secrets r.message }

/-- Modelled from the spec: a logger — identity, ordered sink list, format
pipeline and default metadata. -/
structure Logger where
  id : Nat
  transports : List Sink
  format : Format
  defaultMeta : Meta

/-- Modelled from the spec: optional construction-time configuration. A
supplied sink list or format replaces the default; supplied default metadata
is merged over the built-in defaults. -/
structure LoggerConfig where
  transports : Option (List Sink) := none
  format : Option Format := none
  defaultMeta : Meta := []

/-- Modelled from the spec: process-wide state — the current root logger, the
shared redaction list, and a counter allocating fresh logger identities. -/
structure ProcessState where
  rootLogger : Logger
  redactionList : List String
  nextId : Nat

/-- Modelled from the spec: `createLogger(config)` merges the supplied config
over the built-in defaults: sinks and format replace, default metadata merges
(caller keys win over the built-in `service` field). A fresh identity is
allocated from the process counter. -/
def createLogger (cfg : LoggerConfig) (st : ProcessState) : Logger × ProcessState :=
  ({ id := st.nextId
     transports := cfg.transports.getD [consoleSink]
     format := cfg.format.getD defaultFormat
     defaultMeta := cfg.defaultMeta ++ builtinMeta },
   { st with nextId := st.nextId + 1 })

/-- Modelled from the spec: return the current root logger. -/
def getRootLogger (st : ProcessState) : Logger :=
  st.rootLogger

/-- Modelled from the spec: replace the current root logger unconditionally. -/
def setRootLogger (lg : Logger) (st : ProcessState) : ProcessState :=
  { st with rootLogger := lg }

/-- Modelled from the spec: `createRootLogger(config)` is `createLogger`
followed by `setRootLogger` of the result, returning the new logger. -/
def createRootLogger (cfg : LoggerConfig) (st : ProcessState) : Logger × ProcessState :=
  ((createLogger cfg st).1, setRootLogger (createLogger cfg st).1 (createLogger cfg st).2)

/-- Modelled from the spec: replace the process-wide redaction list with the
surviving entries of the given secrets. -/
def setRootLoggerRedactionList (secrets : List String) (st : ProcessState) : ProcessState :=
  { st with redactionList := setRedactionList secrets }

/-- Modelled from the spec: `logger.child(metadata)` — a new logger sharing
sinks and format, whose default metadata is the seed merged over the
parent's. -/
def Logger.child (lg : Logger) (meta : Meta) : Logger :=
  { lg with defaultMeta := meta ++ lg.defaultMeta }

/-- Modelled from the spec: `logger.addSink(sink)` appends the sink at the end
of the existing ordered sink list. -/
def Logger.addSink (lg : Logger) (s : Sink) : Logger :=
  { lg with transports := lg.transports ++ [s] }

/-- Modelled from the spec: a logging call builds a record from the message,
the level and the per-call metadata merged over the logger's defaults, passes
it through the format pipeline (which reads the shared redaction state), and,
unless the pipeline signals drop, writes the result to every configured
sink. -/
def logCall (st : ProcessState) (lg : Logger) (lvl : Level) (msg : String)
    (meta : Meta) : List (Sink × LogRecord) :=
  match lg.format st.redactionList
      { message := msg, level := lvl, metadata := meta ++ lg.defaultMeta } with
  | none => []
  | some r => lg.transports.map (fun s => (s, r))

/-- Modelled from the spec: the logger created lazily on first registry
access, built with all defaults. -/
def defaultLogger : Logger :=
  { id := 0
    transports := [consoleSink]
    format := defaultFormat
    defaultMeta := builtinMeta }

/-- Modelled from the spec: the initial process state — the lazily created
default root logger, an empty redaction list. -/
def initialState : ProcessState :=
  { rootLogger := defaultLogger
    redactionList := []
    nextId := 1 }

/-- A format stage that drops every record, as built in the test via
`winston.format(() => false)`. -/
def dropFormat : Format := fun _ _ => none

/-- The adapted logger shape expected by the external configuration loader;
`loggerToWinstonLogger` is an external adapter, modelled as preserving the
logger's identity. -/
structure WinstonLogger where
  fromId : Nat
  deriving DecidableEq

/-- Modelled from the spec: external adapter from the injected root logger to
the loader's expected logger form. -/
def loggerToWinstonLogger (lg : Logger) : WinstonLogger :=
  ⟨lg.id⟩

/-- The options object handed to the external configuration loader: the
process arguments and the adapted logger. -/
structure LoadBackendConfigOptions where
  argv : List String
  logger : WinstonLogger
  deriving DecidableEq

/-- The config service factory of configFactory.ts: invoke the external
loader with the process arguments and the adapted injected root logger, and
return its resulting configuration object unchanged. The second component is
the trace of loader invocations the factory performs. -/
def configFactory {Config : Type} (loadBackendConfig : LoadBackendConfigOptions → Config)
    (processArgv : List String) (rootLogger : Logger) :
    Config × List LoadBackendConfigOptions :=
  (loadBackendConfig { argv := processArgv, logger := loggerToWinstonLogger rootLogger },
   [{ argv := processArgv, logger := loggerToWinstonLogger rootLogger }])

/-- Searching a list is unchanged by first filtering with a predicate implied
by the search predicate. -/
theorem find?_filter_of_imp {α : Type} (p q : α → Bool)
    (hpq : ∀ a, p a = true → q a = true) (l : List α) :
    l.find? p = (l.filter q).find? p := by
  induction l with
  | nil => rfl
  | cons a t ih =>
    cases hp : p a with
    | true =>
      have hq := hpq a hp
      simp [List.find?_cons, List.filter_cons, hp, hq]
    | false =>
      cases hq : q a with
      | true => simp [List.find?_cons, List.filter_cons, hp, hq, ih]
      | false => simp [List.find?_cons, List.filter_cons, hp, hq, ih]

/-- Secrets of length at most 1 never match, so filtering them away does not
change which secret matches at a position. -/
theorem matchSecret_filter (secrets : List (List Char)) (l : List Char) :
    matchSecret secrets l =
      matchSecret (secrets.filter (fun s => decide (1 < s.length))) l := by
  unfold matchSecret
  refine find?_filter_of_imp _ _ (fun s hs => ?_) secrets
  simp only [Bool.and_eq_true] at hs
  exact hs.1

/-- The scan is unchanged by discarding secrets of length at most 1. -/
theorem redactGo_filter (secrets : List (List Char)) :
    ∀ (fuel : Nat) (l : List Char),
      redactGo secrets fuel l =
        redactGo (secrets.filter (fun s => decide (1 < s.length))) fuel l := by
  intro fuel
  induction fuel with
  | zero => intro l; rfl
  | succ n ih =>
    intro l
    cases l with
    | nil => rfl
    | cons c rest =>
      simp only [redactGo, ← matchSecret_filter secrets (c :: rest)]
      cases hms : matchSecret secrets (c :: rest) with
      | none => simp only [ih]
      | some s => simp only [ih]

/-- Filtering the underlying character lists agrees with filtering the
strings. -/
theorem filter_map_data (p : List Char → Bool) (secrets : List String) :
    (secrets.map String.data).filter p =
      (secrets.filter (fun s => p s.data)).map String.data := by
  induction secrets with
  | nil => rfl
  | cons a t ih => cases hp : p a.data <;> simp [List.filter_cons, hp, ih]

/-- Redaction only ever uses the surviving secrets: entries of length at most
1 never take part. -/
theorem redact_eq_redact_filter (secrets : List String) (m : String) :
    redact secrets m = redact (setRedactionList secrets) m := by
  unfold redact setRedactionList redactChars
  rw [redactGo_filter, filter_map_data]
  rfl

/-- If no surviving secret occurs anywhere in the input, the scan is the
identity. -/
theorem redactGo_no_match (secrets : List (List Char)) :
    ∀ (fuel : Nat) (l : List Char), l.length ≤ fuel →
      (∀ s ∈ secrets, 1 < s.length → hasMatch s l = false) →
      redactGo secrets fuel l = l := by
  intro fuel
  induction fuel with
  | zero =>
    intro l hl _
    have : l = [] := List.length_eq_zero.mp (Nat.le_zero.mp hl)
    subst this
    rfl
  | succ n ih =>
    intro l hl hno
    cases l with
    | nil => rfl
    | cons c rest =>
      have hms : matchSecret secrets (c :: rest) = none := by
        cases hfind : matchSecret secrets (c :: rest) with
        | none => rfl
        | some s =>
          exfalso
          simp only [matchSecret] at hfind
          have hmem : s ∈ secrets := List.mem_of_find?_eq_some hfind
          have hp := List.find?_some hfind
          simp only [Bool.and_eq_true, decide_eq_true_eq] at hp
          have hfalse := hno s hmem hp.1
          simp [hasMatch, hp.2] at hfalse
      have hrest : ∀ s ∈ secrets, 1 < s.length → hasMatch s rest = false := by
        intro s hs h1
        have hfalse := hno s hs h1
        simp only [hasMatch, Bool.or_eq_false_iff] at hfalse
        exact hfalse.2
      have hlen : rest.length ≤ n := by
        simp only [List.length_cons] at hl
        omega
      simp only [redactGo, hms]
      rw [ih rest hlen hrest]

/-- If no surviving secret occurs anywhere in the input, redaction of the
character list is the identity. -/
theorem redactChars_no_match (secrets : List (List Char)) (l : List Char)
    (hno : ∀ s ∈ secrets, 1 < s.length → hasMatch s l = false) :
    redactChars secrets l = l :=
  redactGo_no_match secrets l.length l (Nat.le_refl _) hno

/-- If no surviving secret occurs in a message, redaction leaves it
unchanged. -/
theorem redact_no_occurs (secrets : List String) (m : String)
    (hno : ∀ s ∈ secrets, 1 < s.length → occursIn s m = false) :
    redact secrets m = m := by
  have hno2 : ∀ s ∈ secrets.map String.data, 1 < s.length → hasMatch s m.data = false := by
    intro s hs h1
    rcases List.mem_map.mp hs with ⟨t, ht, rfl⟩
    exact hno t ht h1
  unfold redact
  rw [redactChars_no_match (secrets.map String.data) m.data hno2]

/-- Metadata lookup over a merge: the override side wins when it binds the
key. -/
theorem getMeta_append (a b : Meta) (k : String) :
    getMeta (a ++ b) k = (getMeta a k).or (getMeta b k) := by
  unfold getMeta
  rw [List.find?_append]
  cases List.find? (fun p => p.1 == k) a <;> simp [Option.or]

/-- Metadata lookup finds a binding of the key at the head. -/
theorem getMeta_cons_self (k : String) (v : String) (rest : Meta) :
    getMeta ((k, v) :: rest) k = some v := by
  simp [getMeta, List.find?_cons]

/-- A logging call through the default format pipeline delivers, to every
configured sink, the record built at the call site with only its message
redacted. -/
theorem logCall_defaultFormat (st : ProcessState) (lg : Logger) (lvl : Level)
    (msg : String) (meta : Meta) (hfmt : lg.format = defaultFormat) :
    logCall st lg lvl msg meta =
      lg.transports.map (fun s =>
        (s, { message := redact st.redactionList msg, level := lvl,
              metadata := meta ++ lg.defaultMeta })) := by
  unfold logCall
  rw [hfmt]
  rfl

/-- C1: after `setRootLoggerRedactionList ["SECRET-1","SECRET_2","SECRET.3"]`,
logging `"Logging SECRET-1 and SECRET_2 and SECRET.3"` delivers to every
configured sink a record whose message is
`"Logging [REDACTED] and [REDACTED] and [REDACTED]"`; hyphen, underscore and
period in the secrets are matched as literal text. Moreover redaction
replaces all non-overlapping exact occurrences of a secret: every occurrence
of `"AB"` in `"ABABxAB"` is replaced, and in `"AAAy"` the two occurrences of
`"AA"` overlapping at the middle character yield exactly one replacement. -/
theorem c1_redaction_scenario :
    logCall
        (setRootLoggerRedactionList ["SECRET-1", "SECRET_2", "SECRET.3"]
          (createRootLogger { transports := some [10, 11] } initialState).2)
        (createRootLogger { transports := some [10, 11] } initialState).1
        Level.info "Logging SECRET-1 and SECRET_2 and SECRET.3" [] =
      [(10, { message := "Logging [REDACTED] and [REDACTED] and [REDACTED]",
              level := Level.info, metadata := [("service", "backstage")] }),
       (11, { message := "Logging [REDACTED] and [REDACTED] and [REDACTED]",
              level := Level.info, metadata := [("service", "backstage")] })] ∧
    redact ["AB"] "ABABxAB" = "[REDACTED][REDACTED]x[REDACTED]" ∧
    redact ["AA"] "AAAy" = "[REDACTED]Ay" :=
  ⟨by decide, by decide, by decide⟩

/-- C2: redaction-list entries that are empty or a single character are
silently dropped: the surviving set of `["SECRET-1","SECRET_2","Q",""]` is
`["SECRET-1","SECRET_2"]`, the scenario log call delivers
`"Logging [REDACTED] and [REDACTED] and Q"`, and in general redaction with
any list equals redaction with only its surviving entries, so short entries
are never redacted. -/
theorem c2_short_secrets_ignored :
    logCall
        (setRootLoggerRedactionList ["SECRET-1", "SECRET_2", "Q", ""]
          (createRootLogger { transports := some [20] } initialState).2)
        (createRootLogger { transports := some [20] } initialState).1
        Level.info "Logging SECRET-1 and SECRET_2 and Q" [] =
      [(20, { message := "Logging [REDACTED] and [REDACTED] and Q",
              level := Level.info, metadata := [("service", "backstage")] })] ∧
    setRedactionList ["SECRET-1", "SECRET_2", "Q", ""] = ["SECRET-1", "SECRET_2"] ∧
    ∀ (secrets : List String) (m : String),
      redact secrets m = redact (setRedactionList secrets) m :=
  ⟨by decide, by decide, fun secrets m => redact_eq_redact_filter secrets m⟩

/-- C3 counterexample: redaction is not idempotent as claimed. With the
redaction list `["RED"]`, the message `"RED"` redacts to `"[REDACTED]"`,
whose placeholder itself contains the secret `"RED"`, so a second pass
rewrites it again. -/
theorem c3_idempotence_counterexample :
    redact (setRedactionList ["RED"]) (redact (setRedactionList ["RED"]) "RED") ≠
      redact (setRedactionList ["RED"]) "RED" := by
  decide

/-- C3 amended: redaction is idempotent whenever no surviving secret occurs
as a substring of the once-redacted message — in particular whenever no
secret overlaps the text of the `[REDACTED]` placeholder. -/
theorem c3_idempotent_of_no_secret_in_output (secrets : List String) (m : String)
    (hno : ∀ s ∈ secrets, 1 < s.length → occursIn s (redact secrets m) = false) :
    redact secrets (redact secrets m) = redact secrets m :=
  redact_no_occurs secrets (redact secrets m) hno

/-- C3 amended, witness: with secret `"ABC"` and message `"xABCy"` the secret
does not occur in the redacted output, and redaction is idempotent there. -/
theorem c3_idempotent_witness :
    redact ["ABC"] (redact ["ABC"] "xABCy") = redact ["ABC"] "xABCy" :=
  c3_idempotent_of_no_secret_in_output ["ABC"] "xABCy" (by decide)

/-- C4: in any state whose root logger identity precedes the allocation
counter, `createRootLogger` returns a logger distinct from the logger
`getRootLogger` returned before the call, subsequent `getRootLogger` calls
return exactly the new logger, and `createRootLogger cfg` is `createLogger
cfg` followed by `setRootLogger` of the result. -/
theorem c4_createRootLogger_replaces (cfg : LoggerConfig) (st : ProcessState)
    (hwf : (getRootLogger st).id < st.nextId) :
    (createRootLogger cfg st).1.id ≠ (getRootLogger st).id ∧
    getRootLogger (createRootLogger cfg st).2 = (createRootLogger cfg st).1 ∧
    createRootLogger cfg st =
      ((createLogger cfg st).1,
        setRootLogger (createLogger cfg st).1 (createLogger cfg st).2) := by
  refine ⟨?_, rfl, rfl⟩
  have hwf2 : st.rootLogger.id < st.nextId := hwf
  intro h
  have h2 : st.nextId = st.rootLogger.id := h
  omega

/-- C4 witness: from the initial state, `createRootLogger` with an empty
config returns a fresh logger that replaces the previous root logger. -/
theorem c4_createRootLogger_witness :
    (createRootLogger {} initialState).1.id ≠ (getRootLogger initialState).id ∧
    getRootLogger (createRootLogger {} initialState).2 =
      (createRootLogger {} initialState).1 ∧
    createRootLogger {} initialState =
      ((createLogger {} initialState).1,
        setRootLogger (createLogger {} initialState).1
          (createLogger {} initialState).2) :=
  c4_createRootLogger_replaces {} initialState (by decide)

/-- C5: with the default format pipeline, when neither the construction-time
default metadata nor the per-call metadata binds `service`, every delivered
record carries `service` equal to the application name while the caller's
extra default-metadata fields are merged in alongside it; a `child` seed or a
per-call binding of `service` overrides it in the delivered records. -/
theorem c5_service_metadata (cfg : LoggerConfig) (st0 st : ProcessState)
    (lvl : Level) (msg : String) (callMeta seed : Meta) (v w : String)
    (hfmt : cfg.format = none)
    (hcfg : getMeta cfg.defaultMeta "service" = none)
    (hcall : getMeta callMeta "service" = none) :
    (∀ p ∈ logCall st (createLogger cfg st0).1 lvl msg callMeta,
        getMeta p.2.metadata "service" = some appName) ∧
    (∀ p ∈ logCall st (createLogger cfg st0).1 lvl msg callMeta,
        ∀ k v0, getMeta callMeta k = none → getMeta cfg.defaultMeta k = some v0 →
          getMeta p.2.metadata k = some v0) ∧
    (∀ p ∈ logCall st ((createLogger cfg st0).1.child (("service", v) :: seed))
        lvl msg callMeta,
        getMeta p.2.metadata "service" = some v) ∧
    (∀ p ∈ logCall st (createLogger cfg st0).1 lvl msg (("service", w) :: callMeta),
        getMeta p.2.metadata "service" = some w) := by
  have hlg : (createLogger cfg st0).1.format = defaultFormat := by
    show cfg.format.getD defaultFormat = defaultFormat
    rw [hfmt]
    rfl
  have hlgm : (createLogger cfg st0).1.defaultMeta = cfg.defaultMeta ++ builtinMeta := rfl
  have hchild : ((createLogger cfg st0).1.child (("service", v) :: seed)).format =
      defaultFormat := hlg
  refine ⟨?_, ?_, ?_, ?_⟩
  · intro p hp
    rw [logCall_defaultFormat st _ lvl msg callMeta hlg] at hp
    rcases List.mem_map.mp hp with ⟨s, _, rfl⟩
    simp only [hlgm, getMeta_append, hcall, hcfg, getMeta_cons_self, Option.or]
    rfl
  · intro p hp k v0 hk hv0
    rw [logCall_defaultFormat st _ lvl msg callMeta hlg] at hp
    rcases List.mem_map.mp hp with ⟨s, _, rfl⟩
    simp only [hlgm, getMeta_append, hk, hv0, Option.or]
  · intro p hp
    rw [logCall_defaultFormat st _ lvl msg callMeta hchild] at hp
    rcases List.mem_map.mp hp with ⟨s, _, rfl⟩
    show getMeta (callMeta ++ ((("service", v) :: seed) ++
      (createLogger cfg st0).1.defaultMeta)) "service" = some v
    simp only [getMeta_append, hcall, getMeta_cons_self, Option.or]
  · intro p hp
    rw [logCall_defaultFormat st _ lvl msg (("service", w) :: callMeta) hlg] at hp
    rcases List.mem_map.mp hp with ⟨s, _, rfl⟩
    show getMeta ((("service", w) :: callMeta) ++
      (createLogger cfg st0).1.defaultMeta) "service" = some w
    simp only [getMeta_append, getMeta_cons_self, Option.or]

/-- C5 witness: concretely, a logger created with extra default metadata
fields delivers records with `service = "backstage"` and the extra fields
intact, and a child seed or per-call metadata overrides `service`. -/
theorem c5_service_metadata_witness :
    (∀ p ∈ logCall initialState
        (createLogger
          { defaultMeta := [("appName", "backstage"), ("appEnv", "prod"),
                            ("containerId", "abc")] } initialState).1
        Level.info "testing" [],
        getMeta p.2.metadata "service" = some appName) ∧
    (∀ p ∈ logCall initialState
        (createLogger
          { defaultMeta := [("appName", "backstage"), ("appEnv", "prod"),
                            ("containerId", "abc")] } initialState).1
        Level.info "testing" [],
        ∀ k v0, getMeta [] k = none →
          getMeta [("appName", "backstage"), ("appEnv", "prod"),
                   ("containerId", "abc")] k = some v0 →
          getMeta p.2.metadata k = some v0) ∧
    (∀ p ∈ logCall initialState
        ((createLogger
          { defaultMeta := [("appName", "backstage"), ("appEnv", "prod"),
                            ("containerId", "abc")] } initialState).1.child
          (("service", "b") :: []))
        Level.info "testing" [],
        getMeta p.2.metadata "service" = some "b") ∧
    (∀ p ∈ logCall initialState
        (createLogger
          { defaultMeta := [("appName", "backstage"), ("appEnv", "prod"),
                            ("containerId", "abc")] } initialState).1
        Level.info "testing" (("service", "c") :: []),
        getMeta p.2.metadata "service" = some "c") :=
  c5_service_metadata
    { defaultMeta := [("appName", "backstage"), ("appEnv", "prod"),
                      ("containerId", "abc")] }
    initialState initialState Level.info "testing" [] [] "b" "c"
    rfl (by decide) (by decide)

/-- C6: supplying sinks in the construction config fully replaces the default
sink list — the logger's sink list is exactly the supplied one, in count and
identity — while `addSink` appends the given sink at the end of the existing
ordered sink list, leaving every existing sink in place. -/
theorem c6_sinks_replace_and_append (cfg : LoggerConfig) (l : List Sink)
    (st : ProcessState) (lg : Logger) (s : Sink) :
    (createLogger { cfg with transports := some l } st).1.transports = l ∧
    (lg.addSink s).transports = lg.transports ++ [s] :=
  ⟨rfl, rfl⟩

/-- C7: if the format pipeline signals drop (returns the falsy result) for
the record built by a log call, no configured sink receives the record. -/
theorem c7_drop_on_falsy_format (st : ProcessState) (lg : Logger) (lvl : Level)
    (msg : String) (meta : Meta)
    (hdrop : lg.format st.redactionList
        { message := msg, level := lvl, metadata := meta ++ lg.defaultMeta } = none) :
    logCall st lg lvl msg meta = [] := by
  unfold logCall
  rw [hdrop]

/-- C7 witness: a logger whose format drops every record delivers nothing. -/
theorem c7_drop_witness :
    logCall initialState
      { id := 5, transports := [30], format := dropFormat, defaultMeta := [] }
      Level.info "hello" [] = [] :=
  c7_drop_on_falsy_format initialState
    { id := 5, transports := [30], format := dropFormat, defaultMeta := [] }
    Level.info "hello" [] rfl

/-- C8: `setRootLoggerRedactionList` replaces the entire redaction set — the
resulting state's list is exactly the surviving entries of the argument,
independent of whatever was set before — and, the redaction state being a
single process-wide value, every logger whose format is the shared default
pipeline (including loggers created before the call) thereafter redacts with
exactly the new set. -/
theorem c8_redaction_list_global (st : ProcessState) (secrets : List String)
    (lg : Logger) (lvl : Level) (msg : String) (meta : Meta)
    (hfmt : lg.format = defaultFormat) :
    (setRootLoggerRedactionList secrets st).redactionList = setRedactionList secrets ∧
    logCall (setRootLoggerRedactionList secrets st) lg lvl msg meta =
      lg.transports.map (fun s =>
        (s, { message := redact (setRedactionList secrets) msg, level := lvl,
              metadata := meta ++ lg.defaultMeta })) := by
  refine ⟨rfl, ?_⟩
  rw [logCall_defaultFormat _ _ _ _ _ hfmt]
  rfl

/-- C8 witness: the pre-existing default root logger redacts with the newly
set list. -/
theorem c8_redaction_list_witness :
    (setRootLoggerRedactionList ["AB", "C"] initialState).redactionList =
      setRedactionList ["AB", "C"] ∧
    logCall (setRootLoggerRedactionList ["AB", "C"] initialState) defaultLogger
        Level.warn "xAB" [] =
      defaultLogger.transports.map (fun s =>
        (s, { message := redact (setRedactionList ["AB", "C"]) "xAB",
              level := Level.warn,
              metadata := [] ++ defaultLogger.defaultMeta })) :=
  c8_redaction_list_global initialState ["AB", "C"] defaultLogger Level.warn
    "xAB" [] rfl

/-- C9: the config service factory invokes the external configuration loader
exactly once, with the process arguments as `argv` and the injected root
logger adapted to the loader's expected form, and returns the loader's
resulting configuration object unchanged. -/
theorem c9_configFactory_loads_once {Config : Type}
    (loadBackendConfig : LoadBackendConfigOptions → Config)
    (processArgv : List String) (rootLogger : Logger) :
    (configFactory loadBackendConfig processArgv rootLogger).2 =
      [{ argv := processArgv, logger := loggerToWinstonLogger rootLogger }] ∧
    (configFactory loadBackendConfig processArgv rootLogger).1 =
      loadBackendConfig
        { argv := processArgv, logger := loggerToWinstonLogger rootLogger } :=
  ⟨rfl, rfl⟩

/-- C10: through the default pipeline, a log call rewrites only the message
field: every delivered record keeps the level and the metadata built at the
call site unchanged, while its message is the redaction of the logged
message. -/
theorem c10_only_message_transformed (st : ProcessState) (lg : Logger)
    (lvl : Level) (msg : String) (meta : Meta)
    (hfmt : lg.format = defaultFormat) :
    ∀ p ∈ logCall st lg lvl msg meta,
      p.2.level = lvl ∧ p.2.metadata = meta ++ lg.defaultMeta ∧
      p.2.message = redact st.redactionList msg := by
  intro p hp
  rw [logCall_defaultFormat _ _ _ _ _ hfmt] at hp
  rcases List.mem_map.mp hp with ⟨s, _, rfl⟩
  exact ⟨rfl, rfl, rfl⟩

/-- C10 witness: in a state whose redaction list rewrites the message, the
concrete record delivered to the console sink keeps level and metadata
unchanged while its message is the redacted text. -/
theorem c10_only_message_witness :
    ({ message := "x[REDACTED]yz", level := Level.info,
       metadata := [("k", "v"), ("service", "backstage")] } : LogRecord).level =
      Level.info ∧
    ({ message := "x[REDACTED]yz", level := Level.info,
       metadata := [("k", "v"), ("service", "backstage")] } : LogRecord).metadata =
      [("k", "v")] ++ defaultLogger.defaultMeta ∧
    ({ message := "x[REDACTED]yz", level := Level.info,
       metadata := [("k", "v"), ("service", "backstage")] } : LogRecord).message =
      redact ({ rootLogger := defaultLogger, redactionList := ["AB"],
                nextId := 1 } : ProcessState).redactionList "xAByz" :=
  c10_only_message_transformed
    { rootLogger := defaultLogger, redactionList := ["AB"], nextId := 1 }
    defaultLogger Level.info "xAByz" [("k", "v")] rfl
    (consoleSink,
      { message := "x[REDACTED]yz", level := Level.info,
        metadata := [("k", "v"), ("service", "backstage")] })
    (by decide)

end RootLogger
